import Mathlib

/-!
Shallow embedding of the Control-Surface excerpt:
  * `ShiftRegisterIn.hpp` — shift-register-backed input device (buffer + control lines)
  * `IncrementSelector.hpp` — increment selector with wrap/clamp
  * `MIDIRotaryEncoder.hpp` — bankable rotary-encoder output element
C++ unsigned bytes (`uint8_t`) are modelled as `Nat` with explicit `% 256`;
C++ `long` is modelled as `Int` with truncating division `Int.tdiv`
(C++ signed division truncates toward zero).
-/

namespace ControlSurface

/-! ## Shift-register input device (`ShiftRegisterIn<N>`)

The device owns four control lines (data is read-only, so only the three
output lines carry a level here) and one `uint8_t` buffer.  Line levels are
`Bool` (`false` = LOW, `true` = HIGH). -/

structure ShiftRegisterInState where
  buffer : Nat
  clockLevel : Bool
  clockEnableLevel : Bool
  loadLevel : Bool
  deriving DecidableEq, Repr

/-- `ExtIO::digitalWrite(clockPin, level)`. -/
def writeClock (level : Bool) (s : ShiftRegisterInState) : ShiftRegisterInState :=
  { s with clockLevel := level }

/-- `ExtIO::digitalWrite(clockEnablePin, level)`. -/
def writeClockEnable (level : Bool) (s : ShiftRegisterInState) : ShiftRegisterInState :=
  { s with clockEnableLevel := level }

/-- `ExtIO::digitalWrite(loadPin, level)`. -/
def writeLoad (level : Bool) (s : ShiftRegisterInState) : ShiftRegisterInState :=
  { s with loadLevel := level }

/-- `ShiftRegisterIn<N>::begin()`: clock LOW, load HIGH, clock-enable HIGH. -/
def beginDevice (s : ShiftRegisterInState) : ShiftRegisterInState :=
  writeClockEnable true (writeLoad true (writeClock false s))

/-- Arduino `bitRead(value, bit)` = `(value >> bit) & 0x01`. -/
def bitRead (value bit : Nat) : Nat :=
  (value >>> bit) % 2

/-- `ShiftRegisterIn<N>::digitalRead(pin)` = `bitRead(buffer, pin)`.
Methods are modelled as `state → result × state` so that (non-)mutation is
visible in the type. -/
def digitalRead (pin : Nat) (s : ShiftRegisterInState) : Nat × ShiftRegisterInState :=
  (bitRead s.buffer pin, s)

/-- `ShiftRegisterIn<N>::digitalReadBuffered(pin)` = `bitRead(buffer, pin)`. -/
def digitalReadBuffered (pin : Nat) (s : ShiftRegisterInState) : Nat × ShiftRegisterInState :=
  (bitRead s.buffer pin, s)

/-- `ShiftRegisterIn<N>::analogRead(pin)`: always returns 0. -/
def analogRead (_pin : Nat) (s : ShiftRegisterInState) : Nat × ShiftRegisterInState :=
  (0, s)

/-- `ShiftRegisterIn<N>::analogReadBuffered(pin)`: delegates to `analogRead`. -/
def analogReadBuffered (pin : Nat) (s : ShiftRegisterInState) : Nat × ShiftRegisterInState :=
  analogRead pin s

/-- `ShiftRegisterIn<N>::digitalWrite(pin, status)`: empty (deprecated) body. -/
def digitalWrite (_pin : Nat) (_status : Bool) (s : ShiftRegisterInState) : ShiftRegisterInState :=
  s

/-- `ShiftRegisterIn<N>::digitalWriteBuffered(pin, status)`: empty (deprecated) body. -/
def digitalWriteBuffered (_pin : Nat) (_status : Bool) (s : ShiftRegisterInState) :
    ShiftRegisterInState :=
  s

/-- `ShiftRegisterIn<N>::analogWrite(pin, value)`: empty (deprecated) body. -/
def analogWrite (_pin : Nat) (_value : Nat) (s : ShiftRegisterInState) : ShiftRegisterInState :=
  s

/-- `ShiftRegisterIn<N>::analogWriteBuffered(pin, value)`: empty (deprecated) body. -/
def analogWriteBuffered (_pin : Nat) (_value : Nat) (s : ShiftRegisterInState) :
    ShiftRegisterInState :=
  s

/-- Arduino `shiftIn(dataPin, clockPin, LSBFIRST)` value assembly: the bits
read off the data line (head = first bit read) are packed LSB-first,
`value |= bit_i << i`. -/
def shiftIn : List Bool → Nat
  | [] => 0
  | b :: rest => b.toNat + 2 * shiftIn rest

/-- The `buffer = shiftIn(dataPin, clockPin, LSBFIRST)` statement: Arduino
`shiftIn` pulses the clock once per bit (leaving it LOW) and its `uint8_t`
result is stored into the `uint8_t` buffer.  `bits` is the sequence of
levels the data line yields, first bit read at the head. -/
def doShiftIn (bits : List Bool) (s : ShiftRegisterInState) : ShiftRegisterInState :=
  { s with buffer := shiftIn bits % 256, clockLevel := false }

/-- `ShiftRegisterIn<N>::prepareReading()`: pulse load LOW then HIGH, then
drive clock-enable LOW. -/
def prepareReading (s : ShiftRegisterInState) : ShiftRegisterInState :=
  writeClockEnable false (writeLoad true (writeLoad false s))

/-- `ShiftRegisterIn<N>::afterReading()`: drive clock-enable HIGH. -/
def afterReading (s : ShiftRegisterInState) : ShiftRegisterInState :=
  writeClockEnable true s

/-- `ShiftRegisterIn<N>::updateBufferedInputs()`:
`prepareReading(); buffer = shiftIn(dataPin, clockPin, LSBFIRST); afterReading()`. -/
def updateBufferedInputs (bits : List Bool) (s : ShiftRegisterInState) : ShiftRegisterInState :=
  afterReading (doShiftIn bits (prepareReading s))

/-- One call of the write family, with its arguments. -/
inductive WriteOp where
  | digital (pin : Nat) (status : Bool)
  | digitalBuffered (pin : Nat) (status : Bool)
  | analog (pin : Nat) (value : Nat)
  | analogBuffered (pin : Nat) (value : Nat)
  deriving DecidableEq, Repr

/-- Dispatch one write-family call on the device. -/
def applyWriteOp (s : ShiftRegisterInState) (op : WriteOp) : ShiftRegisterInState :=
  match op with
  | .digital pin v => digitalWrite pin v s
  | .digitalBuffered pin v => digitalWriteBuffered pin v s
  | .analog pin v => analogWrite pin v s
  | .analogBuffered pin v => analogWriteBuffered pin v s

/-- A sequence of write-family calls, applied in order. -/
def applyWriteOps (ops : List WriteOp) (s : ShiftRegisterInState) : ShiftRegisterInState :=
  ops.foldl applyWriteOp s

/-! ## Increment selector (`IncrementSelector::increment`)

`setting_t` is an unsigned byte, so `setting++` and `setting - 1` are
arithmetic modulo 256. -/

/-- `IncrementSelector::increment()` on current index `setting`:
```
setting_t setting = get();
setting++;
if (setting == getNumberOfSettings())
    setting = wrap ? 0 : setting - 1;
set(setting);
```
`get`/`set` (from the `Selector` base class, not part of this excerpt) are
plain accessors of the stored index, so `increment` is a function of the
index. -/
def incrementSelector (numberOfSettings : Nat) (wrap : Bool) (setting : Nat) : Nat :=
  let s := (setting + 1) % 256
  if s = numberOfSettings then (if wrap then 0 else (s + 255) % 256) else s

/-! ## Bankable rotary-encoder output element (`MIDIRotaryEncoder`) -/

/-- Immutable configuration of a `MIDIRotaryEncoder` (the `BankableMIDIOutput`
base address/stride plus `speedMultiply` and `pulsesPerStep`, both `uint8_t`). -/
structure EncoderConfig where
  address : Nat
  stride : Nat
  speedMultiply : Nat
  pulsesPerStep : Nat
  deriving DecidableEq, Repr

/-- A relative event handed to the `send` function: the scaled value and the
effective address. -/
structure EncEvent where
  value : Int
  address : Nat
  deriving DecidableEq, Repr

/-- Mutable state of a `MIDIRotaryEncoder`: `long previousPosition = 0`. -/
structure EncoderElemState where
  previousPosition : Int
  deriving DecidableEq, Repr

/-- Modelled from the spec: `BankableMIDIOutput::getAddressOffset` (the class
lives in `Banks/BankableMIDIOutput.hpp`, which is not part of this excerpt).
The spec defines the bank-dependent offset as `index × stride`, read fresh
from the Bank at each call. -/
def getAddressOffset (cfg : EncoderConfig) (bankIndex : Nat) : Nat :=
  bankIndex * cfg.stride

/-- `MIDIRotaryEncoder::MIDIRotaryEncoder`: stores the configuration without
any validation; `speedMultiply` and `pulsesPerStep` are truncated to
`uint8_t`.  In particular `pulsesPerStep = 0` is accepted. -/
def mkMIDIRotaryEncoder (address stride speedMultiply pulsesPerStep : Nat) : EncoderConfig :=
  ⟨address, stride, speedMultiply % 256, pulsesPerStep % 256⟩

/-- `MIDIRotaryEncoder::update()`:
```
MIDICNChannelAddress sendAddress = address + getAddressOffset();
long currentPosition = encoder.read();
long difference = (currentPosition - previousPosition) / pulsesPerStep;
if (difference) {
    send(difference * speedMultiply, sendAddress);
    previousPosition += difference * pulsesPerStep;
}
```
`bankIndex` is the Bank's index current at this call; the result is the
event sent (if any) together with the new state.  The division is unguarded
in the C++ source, and dividing by zero is undefined behaviour there, so the
embedding returns `none` when `pulsesPerStep = 0`. -/
def encUpdate (cfg : EncoderConfig) (bankIndex : Nat) (currentPosition : Int)
    (st : EncoderElemState) : Option (Option EncEvent × EncoderElemState) :=
  if cfg.pulsesPerStep = 0 then none
  else
    let sendAddress := cfg.address + getAddressOffset cfg bankIndex
    let difference := Int.tdiv (currentPosition - st.previousPosition) (cfg.pulsesPerStep : Int)
    if difference ≠ 0 then
      some (some ⟨difference * (cfg.speedMultiply : Int), sendAddress⟩,
            ⟨st.previousPosition + difference * (cfg.pulsesPerStep : Int)⟩)
    else
      some (none, st)

/-! ## Helper lemmas -/

/-- The LSB-first packed value of `k` bits is below `2 ^ k`. -/
theorem shiftIn_lt_two_pow (bits : List Bool) : shiftIn bits < 2 ^ bits.length := by
  induction bits with
  | nil => simp [shiftIn]
  | cons b rest ih =>
    simp only [shiftIn, List.length_cons, pow_succ]
    cases b <;> simp [Bool.toNat] <;> omega

/-- Bit `pin` of the LSB-first packed value is the `pin`-th bit read. -/
theorem shiftIn_bit (bits : List Bool) (pin : Nat) (h : pin < bits.length) :
    (shiftIn bits >>> pin) % 2 = (bits.getD pin false).toNat := by
  induction bits generalizing pin with
  | nil => simp at h
  | cons b rest ih =>
    cases pin with
    | zero =>
      simp only [shiftIn, Nat.shiftRight_zero, List.getD_cons_zero]
      cases b <;> simp [Bool.toNat]
    | succ p =>
      have hp : p < rest.length := by simpa using h
      have hdiv : shiftIn (b :: rest) >>> (p + 1) = shiftIn rest >>> p := by
        simp only [shiftIn, Nat.shiftRight_eq_div_pow, pow_succ]
        rw [show 2 ^ p * 2 = 2 * 2 ^ p by ring, ← Nat.div_div_eq_div_mul]
        congr 1
        cases b
        · simp [Bool.toNat]
        · simp [Bool.toNat]
          omega
      rw [hdiv, List.getD_cons_succ]
      exact ih p hp

/-- A single write-family call leaves the device state unchanged. -/
theorem applyWriteOp_eq (s : ShiftRegisterInState) (op : WriteOp) : applyWriteOp s op = s := by
  cases op <;> rfl

/-- A sequence of write-family calls leaves the device state unchanged. -/
theorem applyWriteOps_eq (ops : List WriteOp) (s : ShiftRegisterInState) :
    applyWriteOps ops s = s := by
  induction ops generalizing s with
  | nil => rfl
  | cons op rest ih =>
    show applyWriteOps rest (applyWriteOp s op) = s
    rw [applyWriteOp_eq, ih]

/-- When the update emits, the emitted address is `base + index * stride` for
the bank index passed to that call. -/
theorem encUpdate_emitted_address (cfg : EncoderConfig) (i : Nat) (p : Int)
    (st st' : EncoderElemState) (ev : EncEvent)
    (h : encUpdate cfg i p st = some (some ev, st')) :
    ev.address = cfg.address + i * cfg.stride := by
  unfold encUpdate at h
  split at h
  · exact absurd h (by simp)
  · simp only [] at h
    split at h
    · simp only [Option.some.injEq, Prod.mk.injEq] at h
      rw [← h.1]
      rfl
    · simp at h

/-! ## Claims -/

/-- C1: one poll of the encoder output element with current position `p` and
previous position `q`: if the truncating delta `(p - q) / pulsesPerStep` is
zero, no event is emitted and `previousPosition` is unchanged; otherwise an
event of magnitude `delta * speedMultiply` is emitted and `previousPosition`
advances by exactly `delta * pulsesPerStep`.  With `pulsesPerStep = 4`,
`speedMultiply = 2` and positions 0 → 3 → 6, the first poll emits nothing and
keeps `previousPosition = 0`; the second emits 2 and sets
`previousPosition = 4`. -/
theorem encUpdate_remainder_preserving (cfg : EncoderConfig) (bankIndex : Nat) (p : Int)
    (st : EncoderElemState) (hpps : 0 < cfg.pulsesPerStep) :
    (Int.tdiv (p - st.previousPosition) (cfg.pulsesPerStep : Int) = 0 →
      encUpdate cfg bankIndex p st = some (none, st)) ∧
    (Int.tdiv (p - st.previousPosition) (cfg.pulsesPerStep : Int) ≠ 0 →
      encUpdate cfg bankIndex p st =
        some (some ⟨Int.tdiv (p - st.previousPosition) (cfg.pulsesPerStep : Int) *
                      (cfg.speedMultiply : Int),
                    cfg.address + getAddressOffset cfg bankIndex⟩,
              ⟨st.previousPosition +
                 Int.tdiv (p - st.previousPosition) (cfg.pulsesPerStep : Int) *
                   (cfg.pulsesPerStep : Int)⟩)) ∧
    encUpdate ⟨0, 0, 2, 4⟩ 0 3 ⟨0⟩ = some (none, ⟨0⟩) ∧
    encUpdate ⟨0, 0, 2, 4⟩ 0 6 ⟨0⟩ = some (some ⟨2, 0⟩, ⟨4⟩) := by
  have hne : cfg.pulsesPerStep ≠ 0 := Nat.pos_iff_ne_zero.mp hpps
  refine ⟨?_, ?_, by decide, by decide⟩
  · intro h0
    simp [encUpdate, hne, h0]
  · intro hne0
    simp [encUpdate, hne, hne0]

/-- Witness for C1 at the spec's concrete second poll. -/
theorem encUpdate_remainder_preserving_witness :
    (Int.tdiv ((6 : Int) - (⟨0⟩ : EncoderElemState).previousPosition)
        ((⟨0, 0, 2, 4⟩ : EncoderConfig).pulsesPerStep : Int) = 0 →
      encUpdate ⟨0, 0, 2, 4⟩ 0 6 ⟨0⟩ = some (none, ⟨0⟩)) ∧
    (Int.tdiv ((6 : Int) - (⟨0⟩ : EncoderElemState).previousPosition)
        ((⟨0, 0, 2, 4⟩ : EncoderConfig).pulsesPerStep : Int) ≠ 0 →
      encUpdate ⟨0, 0, 2, 4⟩ 0 6 ⟨0⟩ =
        some (some ⟨Int.tdiv ((6 : Int) - (⟨0⟩ : EncoderElemState).previousPosition)
                      ((⟨0, 0, 2, 4⟩ : EncoderConfig).pulsesPerStep : Int) *
                      ((⟨0, 0, 2, 4⟩ : EncoderConfig).speedMultiply : Int),
                    (⟨0, 0, 2, 4⟩ : EncoderConfig).address +
                      getAddressOffset ⟨0, 0, 2, 4⟩ 0⟩,
              ⟨(⟨0⟩ : EncoderElemState).previousPosition +
                 Int.tdiv ((6 : Int) - (⟨0⟩ : EncoderElemState).previousPosition)
                   ((⟨0, 0, 2, 4⟩ : EncoderConfig).pulsesPerStep : Int) *
                   ((⟨0, 0, 2, 4⟩ : EncoderConfig).pulsesPerStep : Int)⟩)) ∧
    encUpdate ⟨0, 0, 2, 4⟩ 0 3 ⟨0⟩ = some (none, ⟨0⟩) ∧
    encUpdate ⟨0, 0, 2, 4⟩ 0 6 ⟨0⟩ = some (some ⟨2, 0⟩, ⟨4⟩) :=
  encUpdate_remainder_preserving ⟨0, 0, 2, 4⟩ 0 6 ⟨0⟩ (by decide)

/-- C2: for every device size `N` in the supported range and pin in `[0, N)`,
after a refresh the buffer holds the bits shifted in LSB-first (Arduino
`shiftIn` reads 8 bits), and `digitalRead(pin)` returns bit `pin` of the last
value shifted in: `digitalRead(pin) = (lastShiftedValue >> pin) & 1`, which
is the `pin`-th bit read off the data line. -/
theorem digitalRead_after_updateBufferedInputs (N pin : Nat) (bits : List Bool)
    (s : ShiftRegisterInState) (hN : N ≤ 8) (hpin : pin < N) (hbits : bits.length = 8) :
    (digitalRead pin (updateBufferedInputs bits s)).1 = (shiftIn bits >>> pin) % 2 ∧
    (digitalRead pin (updateBufferedInputs bits s)).1 = (bits.getD pin false).toNat := by
  have hbuf : (updateBufferedInputs bits s).buffer = shiftIn bits % 256 := rfl
  have hlt : shiftIn bits < 256 := by
    have h := shiftIn_lt_two_pow bits
    rw [hbits] at h
    simpa using h
  have hmod : shiftIn bits % 256 = shiftIn bits := Nat.mod_eq_of_lt hlt
  refine ⟨?_, ?_⟩
  · simp [digitalRead, bitRead, hbuf, hmod]
  · rw [show (digitalRead pin (updateBufferedInputs bits s)).1 = (shiftIn bits >>> pin) % 2 by
      simp [digitalRead, bitRead, hbuf, hmod]]
    exact shiftIn_bit bits pin (by omega)

/-- Witness for C2: the byte 0b00001101 shifted in LSB-first, read at pin 2. -/
theorem digitalRead_after_updateBufferedInputs_witness :
    (digitalRead 2 (updateBufferedInputs [true, false, true, true, false, false, false, false]
        ⟨0, false, true, true⟩)).1 =
      (shiftIn [true, false, true, true, false, false, false, false] >>> 2) % 2 ∧
    (digitalRead 2 (updateBufferedInputs [true, false, true, true, false, false, false, false]
        ⟨0, false, true, true⟩)).1 =
      (([true, false, true, true, false, false, false, false]).getD 2 false).toNat :=
  digitalRead_after_updateBufferedInputs 8 2
    [true, false, true, true, false, false, false, false] ⟨0, false, true, true⟩
    (by decide) (by decide) (by decide)

/-- C3: one increment with `numberOfSettings = n ≥ 1` and in-range current
index `i` yields `i + 1` when `i + 1 < n`; when `i + 1 = n` it yields 0 under
wrap and stays clamped at `n - 1` otherwise.  With `n = 4` and index 3, one
increment yields 0 when wrapping and 3 when clamping. -/
theorem incrementSelector_step (n i : Nat) (wrap : Bool) (hn : n ≤ 255) (hi : i < n) :
    (i + 1 < n → incrementSelector n wrap i = i + 1) ∧
    (i + 1 = n → incrementSelector n wrap i = if wrap then 0 else n - 1) ∧
    incrementSelector 4 true 3 = 0 ∧ incrementSelector 4 false 3 = 3 := by
  have hmod : (i + 1) % 256 = i + 1 := Nat.mod_eq_of_lt (by omega)
  refine ⟨?_, ?_, by decide, by decide⟩
  · intro hlt
    simp only [incrementSelector, hmod]
    rw [if_neg (by omega)]
  · intro heq
    simp only [incrementSelector, hmod]
    rw [if_pos heq]
    cases wrap
    · simp only [if_neg Bool.false_ne_true, Bool.false_eq_true, if_false]
      omega
    · rfl

/-- Witness for C3 at the spec's wrap example. -/
theorem incrementSelector_step_witness :
    (3 + 1 < 4 → incrementSelector 4 true 3 = 3 + 1) ∧
    (3 + 1 = 4 → incrementSelector 4 true 3 = if true then 0 else 4 - 1) ∧
    incrementSelector 4 true 3 = 0 ∧ incrementSelector 4 false 3 = 3 :=
  incrementSelector_step 4 3 true (by decide) (by decide)

/-- C4: with `numberOfSettings = 0` or `1`, an increment produces a
well-defined result (the embedded `increment` is a total function — no
fault); with exactly one setting the index stays 0 whatever `wrap` is
(with zero settings the code stores the out-of-range index 1, still without
faulting). -/
theorem incrementSelector_degenerate (wrap : Bool) :
    incrementSelector 0 wrap 0 = 1 ∧ incrementSelector 1 wrap 0 = 0 := by
  cases wrap <;> exact ⟨rfl, rfl⟩

/-- C5 counterexample: with base 10 and stride 0, two emitting updates under
the distinct bank indices 0 and 1 both carry the effective address 10
(`10 + 0·0 = 10 + 1·0`), refuting the unconditional claim that a changed
bank index yields different effective addresses. -/
theorem encUpdate_stride_zero_counterexample :
    (0 : Nat) ≠ 1 ∧
    encUpdate ⟨10, 0, 2, 4⟩ 0 4 ⟨0⟩ = some (some ⟨2, 10⟩, ⟨4⟩) ∧
    encUpdate ⟨10, 0, 2, 4⟩ 1 4 ⟨0⟩ = some (some ⟨2, 10⟩, ⟨4⟩) := by
  decide

/-- C5 (amended): whenever an update emits, the emitted effective address is
`base + index * stride` for the bank index current at that update —
recomputed fresh on every emission, never cached; consequently, when the
stride is nonzero, two emissions under different bank indices carry
different effective addresses. -/
theorem encUpdate_address_fresh_amended (cfg : EncoderConfig) (i₁ i₂ : Nat) (p₁ p₂ : Int)
    (st₁ st₂ st₁' st₂' : EncoderElemState) (ev₁ ev₂ : EncEvent)
    (h₁ : encUpdate cfg i₁ p₁ st₁ = some (some ev₁, st₁'))
    (h₂ : encUpdate cfg i₂ p₂ st₂ = some (some ev₂, st₂')) :
    ev₁.address = cfg.address + i₁ * cfg.stride ∧
    ev₂.address = cfg.address + i₂ * cfg.stride ∧
    (0 < cfg.stride → i₁ ≠ i₂ → ev₁.address ≠ ev₂.address) := by
  have k₁ := encUpdate_emitted_address cfg i₁ p₁ st₁ st₁' ev₁ h₁
  have k₂ := encUpdate_emitted_address cfg i₂ p₂ st₂ st₂' ev₂ h₂
  refine ⟨k₁, k₂, ?_⟩
  intro hstride hne12 hcontra
  rw [k₁, k₂] at hcontra
  have hmul : i₁ * cfg.stride = i₂ * cfg.stride := by omega
  exact hne12 (Nat.eq_of_mul_eq_mul_right hstride hmul)

/-- Witness for C5 (amended): base 10, stride 5, indices 0 and 1 give
addresses 10 and 15. -/
theorem encUpdate_address_fresh_amended_witness :
    (⟨2, 10⟩ : EncEvent).address = (⟨10, 5, 2, 4⟩ : EncoderConfig).address + 0 * 5 ∧
    (⟨2, 15⟩ : EncEvent).address = (⟨10, 5, 2, 4⟩ : EncoderConfig).address + 1 * 5 ∧
    (0 < (⟨10, 5, 2, 4⟩ : EncoderConfig).stride → (0 : Nat) ≠ 1 →
      (⟨2, 10⟩ : EncEvent).address ≠ (⟨2, 15⟩ : EncEvent).address) :=
  encUpdate_address_fresh_amended ⟨10, 5, 2, 4⟩ 0 1 4 4 ⟨0⟩ ⟨0⟩ ⟨4⟩ ⟨4⟩ ⟨2, 10⟩ ⟨2, 15⟩
    (by decide) (by decide)

/-- C6: any sequence of write-family calls (digital/analog, buffered or not,
any pin and value) leaves the device state — buffer and control-line
levels — unchanged, so every subsequent `digitalRead` result is what it
would be without those calls. -/
theorem writeFamily_no_effect (ops : List WriteOp) (s : ShiftRegisterInState) :
    applyWriteOps ops s = s ∧
    ∀ pin, (digitalRead pin (applyWriteOps ops s)).1 = (digitalRead pin s).1 := by
  refine ⟨applyWriteOps_eq ops s, ?_⟩
  intro pin
  rw [applyWriteOps_eq ops s]

/-- C7: `digitalRead` and `digitalReadBuffered` agree on every pin and state,
both return bit `pin` of the buffer, and neither mutates the state — only
the refresh operation touches the buffer. -/
theorem digitalRead_eq_buffered_pure (pin : Nat) (s : ShiftRegisterInState) :
    digitalRead pin s = digitalReadBuffered pin s ∧
    (digitalRead pin s).1 = bitRead s.buffer pin ∧
    (digitalRead pin s).2 = s ∧
    (digitalReadBuffered pin s).2 = s :=
  ⟨rfl, rfl, rfl, rfl⟩

/-- C8: `analogRead` and `analogReadBuffered` always return 0, without
mutating the state — a defined constant result, not an error. -/
theorem analogRead_returns_zero (pin : Nat) (s : ShiftRegisterInState) :
    (analogRead pin s).1 = 0 ∧ (analogReadBuffered pin s).1 = 0 ∧
    (analogRead pin s).2 = s ∧ (analogReadBuffered pin s).2 = s :=
  ⟨rfl, rfl, rfl, rfl⟩

/-- C9: refreshing twice while the physical inputs (the bit sequence on the
data line) are unchanged yields the same device state, in particular the
same buffer, after each of the two calls. -/
theorem updateBufferedInputs_idempotent (bits : List Bool) (s : ShiftRegisterInState) :
    updateBufferedInputs bits (updateBufferedInputs bits s) = updateBufferedInputs bits s ∧
    (updateBufferedInputs bits (updateBufferedInputs bits s)).buffer =
      (updateBufferedInputs bits s).buffer :=
  ⟨rfl, rfl⟩

/-- C10: with `pulsesPerStep > 0` every update is free of division by zero
(the embedding returns `some`); the constructor accepts `pulsesPerStep = 0`
without rejection, and there the unguarded division faults (`none`), so
positivity is a necessary precondition. -/
theorem encUpdate_division_safety (address stride sm pps bankIndex : Nat) (p : Int)
    (st : EncoderElemState) (h : 0 < pps % 256) :
    (encUpdate (mkMIDIRotaryEncoder address stride sm pps) bankIndex p st).isSome ∧
    encUpdate (mkMIDIRotaryEncoder address stride sm 0) bankIndex p st = none := by
  constructor
  · have hne : (mkMIDIRotaryEncoder address stride sm pps).pulsesPerStep ≠ 0 := by
      simp only [mkMIDIRotaryEncoder]
      omega
    simp only [encUpdate, if_neg hne]
    split <;> rfl
  · simp [encUpdate, mkMIDIRotaryEncoder]

/-- Witness for C10 at `pulsesPerStep = 4`. -/
theorem encUpdate_division_safety_witness :
    (encUpdate (mkMIDIRotaryEncoder 0 0 2 4) 0 0 ⟨0⟩).isSome ∧
    encUpdate (mkMIDIRotaryEncoder 0 0 2 0) 0 0 ⟨0⟩ = none :=
  encUpdate_division_safety 0 0 2 4 0 0 ⟨0⟩ (by decide)

end ControlSurface
